import Mathlib

/-!
Verification of `scripts/make_datastore_grpc.py`.

The script generates datastore pb2 files twice with the external proto
compiler (with and without the gRPC plugin), diffs the two outputs with a
forward-cursor line alignment, extracts message-type names from the
without-plugin output, and writes a companion module consisting of a header
comment, import lines, a footer comment, and the gRPC-only lines.

The embedding below models the pure text processing directly and the
effectful pipeline (process invocations, temp directories, the output file)
as a function from an environment describing the external world to an
outcome plus an event trace.
-/

namespace MakeDatastoreGrpc

/-! ### Python string primitives, modelled on `List Char` -/

/-- Python substring containment `sep in l` for a character list. -/
def containsSub (sep : List Char) : List Char → Bool
  | [] => sep.isEmpty
  | c :: rest => sep.isPrefixOf (c :: rest) || containsSub sep rest

/-- Python `str.split(sep)` on character lists, fuel-driven so that it is
structurally recursive (the fuel is always at least the length of the list
being split, which makes the fuel-exhaustion branch unreachable). -/
def splitFuel (sep : List Char) : Nat → List Char → List (List Char)
  | _, [] => [[]]
  | 0, l => [l]
  | fuel + 1, c :: rest =>
    if !sep.isEmpty && sep.isPrefixOf (c :: rest) then
      [] :: splitFuel sep fuel ((c :: rest).drop sep.length)
    else
      match splitFuel sep fuel rest with
      | [] => [[c]]
      | p :: ps => (c :: p) :: ps

/-- Python `s.split(sep)` for strings: split on every occurrence of `sep`,
left to right, non-overlapping. -/
def pySplit (sep s : String) : List String :=
  (splitFuel sep.data s.data.length s.data).map String.mk

/-- Python `sep in s` substring test for strings. -/
def pyContains (sep s : String) : Bool :=
  containsSub sep.data s.data

/-- Code-point comparison of characters, as Python compares strings. -/
def charListLE : List Char → List Char → Bool
  | [], _ => true
  | _ :: _, [] => false
  | a :: as, b :: bs =>
    if a.toNat = b.toNat then charListLE as bs else decide (a.toNat < b.toNat)

/-- Lexicographic order on strings by code point, as Python `sorted` uses. -/
def strLE (a b : String) : Bool := charListLE a.data b.data

/-- Insert a string into a list keeping it sorted under `strLE`. -/
def insertSorted (x : String) : List String → List String
  | [] => [x]
  | y :: ys => if strLE x y then x :: y :: ys else y :: insertSorted x ys

/-- Python `sorted` on a list of strings (insertion sort; the multiset of a
sorted output is what the claims depend on, and duplicates are kept). -/
def pySorted (l : List String) : List String := l.foldr insertSorted []

/-- Python `os.path.join(a, b)` on character lists (POSIX): an absolute
second component replaces the path, otherwise a separator is inserted
unless the accumulated path is empty or already ends with one. -/
def joinChars (a b : List Char) : List Char :=
  if b.head? = some '/' then b
  else if a.isEmpty || a.getLast? = some '/' then a ++ b
  else a ++ '/' :: b

/-- Python `os.path.join(a, b)` for strings. -/
def os_path_join (a b : String) : String := String.mk (joinChars a.data b.data)

/-! ### Constants of the script -/

/-- Marker substring denoting a generated message-type class declaration. -/
def MESSAGE_SNIPPET : String := " = _reflection.GeneratedProtocolMessageType("

/-- The import template `IMPORT_TEMPLATE % (name,)`. -/
def IMPORT_TEMPLATE (name : String) : String :=
  "from google.cloud.datastore._generated.datastore_pb2 import " ++ name ++ "\n"

/-- Header comment line written first into the output file. -/
def HEADER_LINE : String := "# BEGIN: Imports from datastore_pb2\n"

/-- Footer comment line written after the import lines. -/
def FOOTER_LINE : String := "#   END: Imports from datastore_pb2\n"

/-- `PROTOS_DIR = os.path.join(PROJECT_ROOT, 'googleapis-pb')`. -/
def PROTOS_DIR (root : String) : String := os_path_join root "googleapis-pb"

/-- `PROTO_PATH = os.path.join(PROTOS_DIR, 'google', 'datastore', 'v1',
'datastore.proto')`. -/
def PROTO_PATH (root : String) : String :=
  os_path_join (os_path_join (os_path_join
    (os_path_join (PROTOS_DIR root) "google") "datastore") "v1") "datastore.proto"

/-- `GRPC_ONLY_FILE`, the fixed output destination. -/
def GRPC_ONLY_FILE (root : String) : String :=
  os_path_join (os_path_join (os_path_join (os_path_join
    (os_path_join root "datastore") "google") "cloud") "datastore")
    (os_path_join "_generated" "datastore_grpc_pb2.py")

/-! ### The environment: everything the script observes from outside -/

/-- One run's external world: the project root, the optional
`GRPCIO_VIRTUALENV` variable, `sys.executable`, and one exit code and read
result per subprocess call the program makes — the single with-plugin
invocation, the without-plugin invocation of the diff step, and the
distinct without-plugin rerun inside message-type extraction (each is a
fresh subprocess and may fail independently). A read result of `none`
models an IOError while reading the generated file; `prevOutput` is the
previous content of the output file (`none` models a file that does not
exist). -/
structure Env where
  projectRoot : String
  grpcioVirtualenv : Option String
  sysExecutable : String
  withCode : Int
  withRead : Option (List String)
  withoutCode : Int
  withoutRead : Option (List String)
  withoutCode2 : Int
  withoutRead2 : Option (List String)
  prevOutput : Option String

/-- `PYTHON_EXECUTABLE`: `sys.executable` when `GRPCIO_VIRTUALENV` is unset,
otherwise `os.path.join(GRPCIO_VIRTUALENV, 'bin', 'python')`. -/
def PYTHON_EXECUTABLE (env : Env) : String :=
  match env.grpcioVirtualenv with
  | none => env.sysExecutable
  | some v => os_path_join (os_path_join v "bin") "python"

/-! ### Pure text processing of the script -/

/-- The alignment loop of `get_pb2_grpc_only`, faithful to the source:
iterate over the with-plugin lines, index the without-plugin list at the
cursor (an out-of-range index is an uncaught IndexError, modelled as
`none`), advance the cursor on equality and record the line otherwise. -/
def diffLoop (non_grpc_contents : List String) :
    List String → Nat → Option (List String)
  | [], _ => some []
  | line :: rest, curr =>
    match non_grpc_contents.get? curr with
    | none => none
    | some b =>
      if line = b then diffLoop non_grpc_contents rest (curr + 1)
      else (diffLoop non_grpc_contents rest curr).map (fun t => line :: t)

/-- `get_pb2_grpc_only` applied to the two line lists it reads: the
with-plugin lines walked against the without-plugin lines from cursor 0. -/
def get_pb2_grpc_only (grpc_contents non_grpc_contents : List String) :
    Option (List String) :=
  diffLoop non_grpc_contents grpc_contents 0

/-- The collection loop of `get_pb2_message_types`: for each line containing
the marker, `name, _ = line.split(MESSAGE_SNIPPET)` (a split into anything
other than exactly two parts is an uncaught ValueError, modelled as
`none`). -/
def extractLoop : List String → Option (List String)
  | [] => some []
  | line :: rest =>
    if pyContains MESSAGE_SNIPPET line then
      match pySplit MESSAGE_SNIPPET line with
      | [n, _] => (extractLoop rest).map (fun t => n :: t)
      | _ => none
    else extractLoop rest

/-- `get_pb2_message_types` applied to the without-plugin lines it reads:
collect the names, then `sorted(result)`. -/
def get_pb2_message_types (non_grpc_contents : List String) :
    Option (List String) :=
  (extractLoop non_grpc_contents).map pySorted

/-- Modelled from the spec (§4.2), for comparison with `diffLoop`: the total
walk that returns "the lines of A not consumed while walking B with the
forward cursor", never faulting. -/
def specWalkDiff : List String → List String → List String
  | [], _ => []
  | a :: as, [] => a :: specWalkDiff as []
  | a :: as, b :: bs =>
    if a = b then specWalkDiff as bs else a :: specWalkDiff as (b :: bs)

/-- Modelled from the spec (§4.3): the name a line contributes, namely the
portion of the line to the left of the marker, when the line contains the
marker exactly once. -/
def leftName (line : String) : Option String :=
  match pySplit MESSAGE_SNIPPET line with
  | [n, _] => some n
  | _ => none

/-! ### The effectful pipeline as a trace semantics -/

/-- Observable events of one run. -/
inductive Event where
  | mkdtemp : Event
  | protocCall (exe : String) (withPlugin : Bool) (protoPath : String) : Event
  | rmtree : Event
  | openOutput : Event
  | writeOutput (chunk : String) : Event
  deriving DecidableEq, Repr

/-- How a piece of the script finishes: a value, `sys.exit(code)`, or an
uncaught exception. -/
inductive Outcome (α : Type) where
  | ok (a : α) : Outcome α
  | exit (code : Int) : Outcome α
  | fault : Outcome α
  deriving DecidableEq, Repr

/-- Sequencing of traced computations: `sys.exit` and uncaught exceptions
propagate, traces concatenate. -/
def seqOut {α β : Type} (x : Outcome α × List Event)
    (f : α → Outcome β × List Event) : Outcome β × List Event :=
  match x with
  | (Outcome.ok a, tr) => let (r, tr2) := f a; (r, tr ++ tr2)
  | (Outcome.exit c, tr) => (Outcome.exit c, tr)
  | (Outcome.fault, tr) => (Outcome.fault, tr)

/-- `get_pb2_contents_with_grpc`: make a temp dir, invoke the compiler with
the gRPC plugin, exit with the compiler's status when it is non-zero,
otherwise read the generated file; the temp dir is removed in a `finally`
block on every path. -/
def get_pb2_contents_with_grpc (env : Env) : Outcome (List String) × List Event :=
  (if env.withCode ≠ 0 then Outcome.exit env.withCode
   else
     match env.withRead with
     | none => Outcome.fault
     | some lines => Outcome.ok lines,
   [Event.mkdtemp,
    Event.protocCall (PYTHON_EXECUTABLE env) true (PROTO_PATH env.projectRoot),
    Event.rmtree])

/-- `get_pb2_contents_without_grpc`: same as above without the plugin
flag. The function is called twice by the program; each call is a fresh
subprocess, so the call's own exit code and read result are passed in
(the environment preassigns one pair per call site). -/
def get_pb2_contents_without_grpc (env : Env) (code : Int)
    (read : Option (List String)) : Outcome (List String) × List Event :=
  (if code ≠ 0 then Outcome.exit code
   else
     match read with
     | none => Outcome.fault
     | some lines => Outcome.ok lines,
   [Event.mkdtemp,
    Event.protocCall (PYTHON_EXECUTABLE env) false (PROTO_PATH env.projectRoot),
    Event.rmtree])

/-- The traced `get_pb2_grpc_only`: both generations, then the alignment. -/
def run_get_pb2_grpc_only (env : Env) : Outcome (List String) × List Event :=
  seqOut (get_pb2_contents_with_grpc env) fun grpc_contents =>
  seqOut (get_pb2_contents_without_grpc env env.withoutCode env.withoutRead)
    fun non_grpc_contents =>
  (match get_pb2_grpc_only grpc_contents non_grpc_contents with
   | some d => (Outcome.ok d, [])
   | none => (Outcome.fault, []))

/-- The traced `get_pb2_message_types`: a fresh without-plugin generation —
the program's third compiler invocation, with its own exit code and read
result — then collection and sorting. -/
def run_get_pb2_message_types (env : Env) : Outcome (List String) × List Event :=
  seqOut (get_pb2_contents_without_grpc env env.withoutCode2 env.withoutRead2)
    fun non_grpc_contents =>
  (match get_pb2_message_types non_grpc_contents with
   | some names => (Outcome.ok names, [])
   | none => (Outcome.fault, []))

/-- `main`: compute the gRPC-only lines, open the output file for writing
(truncating it), write the header, compute the message types (which runs a
third compiler invocation), write one import line per name, the footer, and
the joined gRPC-only lines. -/
def main (env : Env) : Outcome Unit × List Event :=
  seqOut (run_get_pb2_grpc_only env) fun grpc_only_lines =>
  match run_get_pb2_message_types env with
  | (Outcome.ok names, tr2) =>
    (Outcome.ok (),
     [Event.openOutput, Event.writeOutput HEADER_LINE] ++ tr2
       ++ names.map (fun n => Event.writeOutput (IMPORT_TEMPLATE n))
       ++ [Event.writeOutput FOOTER_LINE,
           Event.writeOutput (String.join grpc_only_lines)])
  | (Outcome.exit c, tr2) =>
    (Outcome.exit c, [Event.openOutput, Event.writeOutput HEADER_LINE] ++ tr2)
  | (Outcome.fault, tr2) =>
    (Outcome.fault, [Event.openOutput, Event.writeOutput HEADER_LINE] ++ tr2)

/-- The bytes a trace wrote into the output file, in order. -/
def writtenContent (tr : List Event) : String :=
  String.join (tr.filterMap fun e =>
    match e with
    | Event.writeOutput s => some s
    | _ => none)

/-- The content of the output file after a run: the concatenated writes when
the file was opened (mode `wb` truncates), otherwise whatever was there
before. -/
def finalOutput (env : Env) : Option String :=
  if Event.openOutput ∈ (main env).2 then some (writtenContent (main env).2)
  else env.prevOutput

/-- Projection selecting compiler invocations from a trace. -/
def protocOf : Event → Option (String × Bool × String)
  | Event.protocCall exe wp proto => some (exe, wp, proto)
  | _ => none

/-! ### Concrete fixtures used in examples and counterexamples -/

/-- A without-plugin line declaring message type `Foo`. -/
def fooLine : String := "Foo = _reflection.GeneratedProtocolMessageType(x"

/-- A without-plugin line declaring message type `Bar`. -/
def barLine : String := "Bar = _reflection.GeneratedProtocolMessageType(y"

/-- A line holding the marker twice: its split has three parts. -/
def doubleLine : String :=
  "A = _reflection.GeneratedProtocolMessageType(B = _reflection.GeneratedProtocolMessageType(C"

/-- An environment in which every subprocess call succeeds and all
generated files are identical marker-free one-liners. -/
def envOk : Env :=
  { projectRoot := "/repo", grpcioVirtualenv := none,
    sysExecutable := "/usr/bin/python", withCode := 0,
    withRead := some ["import a\n"], withoutCode := 0,
    withoutRead := some ["import a\n"], withoutCode2 := 0,
    withoutRead2 := some ["import a\n"], prevOutput := none }

/-- `envOk` with a failing with-plugin compiler invocation. -/
def envFailWith : Env := { envOk with withCode := 5 }

/-- `envOk` in which the without-plugin rerun inside message-type
extraction — the third compiler invocation, made after the output file has
been opened — fails with status 9. -/
def envRerunFail : Env := { envOk with withoutCode2 := 9 }

/-- `envOk` with identical generated files holding one marker line. -/
def envIdentical : Env :=
  { envOk with withRead := some [fooLine], withoutRead := some [fooLine],
               withoutRead2 := some [fooLine] }

/-- `envOk` with one gRPC-only line and one marker line. -/
def envRich : Env :=
  { envOk with withRead := some [fooLine, "g\n", "z\n"],
               withoutRead := some [fooLine, "z\n"],
               withoutRead2 := some [fooLine, "z\n"] }

/-! ### Lemmas about the alignment loop -/

/-- When the loop does not fault, it computes the total forward walk of the
spec, started at the current cursor position. -/
theorem diffLoop_eq_specWalkDiff (B : List String) :
    ∀ (A : List String) (curr : Nat) (d : List String),
      diffLoop B A curr = some d → d = specWalkDiff A (B.drop curr) := by
  intro A
  induction A with
  | nil =>
    intro curr d hd
    simp only [diffLoop] at hd
    cases hd
    rfl
  | cons a as ih =>
    intro curr d hd
    cases hget : B.get? curr with
    | none => simp only [diffLoop, hget] at hd; cases hd
    | some b =>
      simp only [diffLoop, hget] at hd
      have hlt : curr < B.length := (List.get?_eq_some.mp hget).1
      have hb : B[curr] = b := by
        have := (List.get?_eq_some.mp hget).2
        simpa [List.get_eq_getElem] using this
      have hdrop : B.drop curr = b :: B.drop (curr + 1) := by
        rw [List.drop_eq_getElem_cons hlt, hb]
      by_cases hab : a = b
      · rw [if_pos hab] at hd
        rw [hdrop, specWalkDiff, if_pos hab]
        exact ih (curr + 1) d hd
      · rw [if_neg hab] at hd
        cases ht : diffLoop B as curr with
        | none => rw [ht] at hd; cases hd
        | some t =>
          rw [ht] at hd
          cases hd
          rw [hdrop, specWalkDiff, if_neg hab, ← hdrop]
          exact congrArg (a :: ·) (ih curr t ht)

/-- Walking a genuine subsequence consumes it entirely: the spec walk leaves
exactly the surplus lines. -/
theorem specWalkDiff_length :
    ∀ (A B : List String), B.Sublist A →
      (specWalkDiff A B).length + B.length = A.length := by
  intro A
  induction A with
  | nil =>
    intro B hB
    rw [List.sublist_nil.mp hB]
    rfl
  | cons a as ih =>
    intro B hB
    cases B with
    | nil =>
      simp only [specWalkDiff, List.length_cons, List.length_nil]
      have := ih [] (List.nil_sublist as)
      simpa using this
    | cons b bs =>
      by_cases hab : a = b
      · subst hab
        have hbs : bs.Sublist as := by
          cases hB with
          | cons _ h => exact (List.sublist_cons_self a bs).trans h
          | cons₂ _ h => exact h
        have := ih bs hbs
        rw [specWalkDiff, if_pos rfl]
        simp only [List.length_cons]
        omega
      · have hcons : (b :: bs).Sublist as := by
          cases hB with
          | cons _ h => exact h
          | cons₂ _ h => exact absurd rfl hab
        have := ih (b :: bs) hcons
        rw [specWalkDiff, if_neg hab]
        simp only [List.length_cons] at this ⊢
        omega

/-- Walking the suffix of the reference list at the matching cursor ends the
loop with nothing recorded. -/
theorem diffLoop_suffix (B : List String) :
    ∀ (suffix : List String) (curr : Nat), B.drop curr = suffix →
      diffLoop B suffix curr = some [] := by
  intro suffix
  induction suffix with
  | nil => intro curr _; rfl
  | cons s ss ih =>
    intro curr hdrop
    have hget : B.get? curr = some s := by
      have : (B.drop curr).head? = some s := by rw [hdrop]; rfl
      rwa [List.head?_drop, ← List.get?_eq_getElem?] at this
    have hdrop1 : B.drop (curr + 1) = ss := by
      have : (B.drop curr).tail = B.drop (curr + 1) := List.tail_drop B curr
      rw [hdrop] at this
      exact this.symm
    simp only [diffLoop, hget, if_pos rfl]
    exact ih (curr + 1) hdrop1

/-- Once the cursor has consumed the whole reference list, any further line
indexes it out of range and the loop faults. -/
theorem diffLoop_suffix_append (B : List String) :
    ∀ (suffix : List String) (curr : Nat) (extra : List String),
      extra ≠ [] → B.drop curr = suffix →
      diffLoop B (suffix ++ extra) curr = none := by
  intro suffix
  induction suffix with
  | nil =>
    intro curr extra hne hdrop
    cases extra with
    | nil => exact absurd rfl hne
    | cons e es =>
      have hget : B.get? curr = none := by
        rw [List.get?_eq_none]
        exact List.drop_eq_nil_iff.mp hdrop
      simp only [List.nil_append, diffLoop, hget]
  | cons s ss ih =>
    intro curr extra hne hdrop
    have hget : B.get? curr = some s := by
      have : (B.drop curr).head? = some s := by rw [hdrop]; rfl
      rwa [List.head?_drop, ← List.get?_eq_getElem?] at this
    have hdrop1 : B.drop (curr + 1) = ss := by
      have : (B.drop curr).tail = B.drop (curr + 1) := List.tail_drop B curr
      rw [hdrop] at this
      exact this.symm
    simp only [List.cons_append, diffLoop, hget, if_pos rfl]
    exact ih (curr + 1) extra hne hdrop1

/-! ### Lemmas about splitting and extraction -/

/-- A split never produces an empty list of parts. -/
theorem splitFuel_ne_nil (sep : List Char) :
    ∀ (fuel : Nat) (l : List Char), splitFuel sep fuel l ≠ [] := by
  intro fuel
  induction fuel with
  | zero => intro l; cases l <;> simp [splitFuel]
  | succ f ih =>
    intro l
    cases l with
    | nil => simp [splitFuel]
    | cons c rest =>
      rw [splitFuel]
      by_cases hp : (!sep.isEmpty && sep.isPrefixOf (c :: rest)) = true
      · rw [if_pos hp]; simp
      · rw [if_neg hp]
        cases h : splitFuel sep f rest with
        | nil => exact absurd h (ih rest)
        | cons p ps => simp

/-- A list not containing the separator splits into itself alone. -/
theorem splitFuel_of_not_contains (sep : List Char) :
    ∀ (l : List Char) (fuel : Nat), l.length ≤ fuel →
      containsSub sep l = false → splitFuel sep fuel l = [l] := by
  intro l
  induction l with
  | nil => intro fuel _ _; cases fuel <;> rfl
  | cons c rest ih =>
    intro fuel hfuel hc
    simp only [containsSub, Bool.or_eq_false_iff] at hc
    cases fuel with
    | zero => simp at hfuel
    | succ f =>
      rw [splitFuel]
      have hp : (!sep.isEmpty && sep.isPrefixOf (c :: rest)) = false := by
        rw [hc.1, Bool.and_false]
      rw [if_neg (by simp [hp])]
      have : splitFuel sep f rest = [rest] := by
        apply ih f ?_ hc.2
        simp only [List.length_cons] at hfuel
        omega
      rw [this]

/-- A list containing a non-empty separator splits into at least two
parts. -/
theorem splitFuel_two_le (sep : List Char) (hsep : sep ≠ []) :
    ∀ (l : List Char) (fuel : Nat), l.length ≤ fuel →
      containsSub sep l = true → 2 ≤ (splitFuel sep fuel l).length := by
  intro l
  induction l with
  | nil =>
    intro fuel _ hc
    simp only [containsSub, List.isEmpty_iff] at hc
    exact absurd hc hsep
  | cons c rest ih =>
    intro fuel hfuel hc
    cases fuel with
    | zero => simp at hfuel
    | succ f =>
      rw [splitFuel]
      by_cases hp : sep.isPrefixOf (c :: rest) = true
      · rw [if_pos (by simp [hp, hsep])]
        have := splitFuel_ne_nil sep f ((c :: rest).drop sep.length)
        simp only [List.length_cons]
        cases h : splitFuel sep f ((c :: rest).drop sep.length) with
        | nil => exact absurd h this
        | cons p ps => simp
      · rw [if_neg (by simp [hp])]
        simp only [containsSub, hp, Bool.false_or] at hc
        have h2 := ih f (by simp only [List.length_cons] at hfuel; omega) hc
        cases h : splitFuel sep f rest with
        | nil => exact absurd h (splitFuel_ne_nil sep f rest)
        | cons p ps =>
          rw [h] at h2
          simpa using h2

/-- The marker of the script is not the empty string. -/
theorem message_snippet_ne_nil : MESSAGE_SNIPPET.data ≠ [] := by decide

/-- When every line splits into at most two parts (equivalently, no line
holds the marker more than once), the collection loop succeeds and returns
the left-of-marker portions of the marker lines, in order. -/
theorem extractLoop_eq_filterMap :
    ∀ (lines : List String),
      (∀ l ∈ lines, (pySplit MESSAGE_SNIPPET l).length ≤ 2) →
      extractLoop lines = some (lines.filterMap leftName) := by
  intro lines
  induction lines with
  | nil => intro _; rfl
  | cons line rest ih =>
    intro h
    have hrest := ih fun l hl => h l (List.mem_cons_of_mem line hl)
    by_cases hc : pyContains MESSAGE_SNIPPET line = true
    · have h2 : 2 ≤ (pySplit MESSAGE_SNIPPET line).length := by
        have := splitFuel_two_le MESSAGE_SNIPPET.data message_snippet_ne_nil
          line.data line.data.length (le_refl _) hc
        simpa [pySplit] using this
      have hle : (pySplit MESSAGE_SNIPPET line).length ≤ 2 :=
        h line (List.mem_cons_self line rest)
      have hlen : (pySplit MESSAGE_SNIPPET line).length = 2 := le_antisymm hle h2
      obtain ⟨n, m, hnm⟩ : ∃ n m, pySplit MESSAGE_SNIPPET line = [n, m] := by
        cases hs : pySplit MESSAGE_SNIPPET line with
        | nil => rw [hs] at hlen; simp at hlen
        | cons x xs =>
          cases xs with
          | nil => rw [hs] at hlen; simp at hlen
          | cons y ys =>
            cases ys with
            | nil => exact ⟨x, y, rfl⟩
            | cons z zs => rw [hs] at hlen; simp at hlen
      rw [extractLoop, if_pos hc, hnm, hrest]
      have hleft : leftName line = some n := by rw [leftName, hnm]
      simp [List.filterMap_cons, hleft]
    · have hcf : pyContains MESSAGE_SNIPPET line = false := by
        simpa using hc
      have hone : pySplit MESSAGE_SNIPPET line = [line] := by
        have hsp := splitFuel_of_not_contains MESSAGE_SNIPPET.data line.data
          line.data.length (le_refl _) (by simpa [pyContains] using hcf)
        rw [pySplit, hsp]
        rfl
      have hleft : leftName line = none := by rw [leftName, hone]
      rw [extractLoop, if_neg (by simp [hcf])]
      simp [List.filterMap_cons, hleft, hrest]

/-! ### Lemmas about sorting -/

/-- The code-point comparison is total. -/
theorem charListLE_total :
    ∀ (as bs : List Char), charListLE as bs = false → charListLE bs as = true := by
  intro as
  induction as with
  | nil => intro bs h; simp [charListLE] at h
  | cons a as' ih =>
    intro bs h
    cases bs with
    | nil => rfl
    | cons b bs' =>
      rw [charListLE] at h ⊢
      by_cases hab : a.toNat = b.toNat
      · rw [if_pos hab] at h
        rw [if_pos hab.symm]
        exact ih bs' h
      · rw [if_neg hab] at h
        have hlt : ¬ a.toNat < b.toNat := by simpa using h
        rw [if_neg (fun hba => hab (hba.symm))]
        simp only [decide_eq_true_eq]
        omega

/-- Totality of `strLE`. -/
theorem strLE_total (a b : String) (h : strLE a b = false) : strLE b a = true :=
  charListLE_total a.data b.data h

/-- The code-point comparison is transitive. -/
theorem charListLE_trans :
    ∀ (as bs cs : List Char), charListLE as bs = true →
      charListLE bs cs = true → charListLE as cs = true := by
  intro as
  induction as with
  | nil => intro bs cs _ _; rfl
  | cons a as' ih =>
    intro bs cs h1 h2
    cases bs with
    | nil => simp [charListLE] at h1
    | cons b bs' =>
      cases cs with
      | nil => simp [charListLE] at h2
      | cons c cs' =>
        rw [charListLE] at h1 h2 ⊢
        by_cases hab : a.toNat = b.toNat
        · rw [if_pos hab] at h1
          by_cases hbc : b.toNat = c.toNat
          · rw [if_pos hbc] at h2
            rw [if_pos (hab.trans hbc)]
            exact ih bs' cs' h1 h2
          · rw [if_neg hbc] at h2
            simp only [decide_eq_true_eq] at h2
            rw [if_neg (by omega)]
            simp only [decide_eq_true_eq]
            omega
        · rw [if_neg hab] at h1
          simp only [decide_eq_true_eq] at h1
          by_cases hbc : b.toNat = c.toNat
          · rw [if_neg (by omega)]
            simp only [decide_eq_true_eq]
            omega
          · rw [if_neg hbc] at h2
            simp only [decide_eq_true_eq] at h2
            rw [if_neg (by omega)]
            simp only [decide_eq_true_eq]
            omega

/-- Transitivity of `strLE`. -/
theorem strLE_trans {a b c : String} (h1 : strLE a b = true)
    (h2 : strLE b c = true) : strLE a c = true :=
  charListLE_trans a.data b.data c.data h1 h2

/-- Membership after an insertion. -/
theorem insertSorted_mem (x : String) :
    ∀ (l : List String) (z : String),
      z ∈ insertSorted x l ↔ z = x ∨ z ∈ l := by
  intro l
  induction l with
  | nil => intro z; simp [insertSorted]
  | cons y ys ih =>
    intro z
    rw [insertSorted]
    by_cases hxy : strLE x y = true
    · rw [if_pos hxy]
      simp [List.mem_cons]
    · rw [if_neg hxy]
      simp only [List.mem_cons, ih z]
      tauto

/-- Inserting into a sorted list keeps it sorted. -/
theorem insertSorted_pairwise (x : String) :
    ∀ (l : List String), l.Pairwise (fun a b => strLE a b = true) →
      (insertSorted x l).Pairwise (fun a b => strLE a b = true) := by
  intro l
  induction l with
  | nil => intro _; simp [insertSorted]
  | cons y ys ih =>
    intro h
    rw [List.pairwise_cons] at h
    rw [insertSorted]
    by_cases hxy : strLE x y = true
    · rw [if_pos hxy]
      refine List.pairwise_cons.mpr ⟨?_, List.pairwise_cons.mpr h⟩
      intro z hz
      rcases List.mem_cons.mp hz with hz | hz
      · rw [hz]; exact hxy
      · -- strLE x z via x ≤ y ≤ z; avoid transitivity: prove it directly
        exact strLE_trans hxy (h.1 z hz)
    · rw [if_neg hxy]
      refine List.pairwise_cons.mpr ⟨?_, ih h.2⟩
      intro z hz
      have hz' := (insertSorted_mem x ys z).mp hz
      rcases hz' with hz' | hz'
      · rw [hz']
        exact strLE_total x y (by simpa using hxy)
      · exact h.1 z hz'

/-- The sort produces a list that is pairwise ordered under `strLE`. -/
theorem pySorted_pairwise :
    ∀ (l : List String), (pySorted l).Pairwise (fun a b => strLE a b = true) := by
  intro l
  induction l with
  | nil => simp [pySorted]
  | cons x xs ih =>
    have : pySorted (x :: xs) = insertSorted x (pySorted xs) := rfl
    rw [this]
    exact insertSorted_pairwise x (pySorted xs) ih

/-- The sort permutes its input: nothing is added, dropped or
deduplicated. -/
theorem pySorted_perm : ∀ (l : List String), (pySorted l).Perm l := by
  intro l
  induction l with
  | nil => rfl
  | cons x xs ih =>
    have heq : pySorted (x :: xs) = insertSorted x (pySorted xs) := rfl
    have hins : ∀ (m : List String), (insertSorted x m).Perm (x :: m) := by
      intro m
      induction m with
      | nil => rfl
      | cons y ys ihm =>
        rw [insertSorted]
        by_cases hxy : strLE x y = true
        · rw [if_pos hxy]
        · rw [if_neg hxy]
          exact (List.Perm.cons y ihm).trans (List.Perm.swap x y ys)
    rw [heq]
    exact (hins (pySorted xs)).trans (List.Perm.cons x ih)

/-! ### Lemmas about string concatenation -/

/-- Folding append over a list pulls the seed out front. -/
theorem foldl_append_eq (l : List String) :
    ∀ (x : String), l.foldl (· ++ ·) x = x ++ l.foldl (· ++ ·) "" := by
  induction l with
  | nil =>
    intro x
    apply String.ext
    simp [String.data_append]
  | cons y ys ih =>
    intro x
    have h1 : (y :: ys).foldl (· ++ ·) x = ys.foldl (· ++ ·) (x ++ y) := rfl
    have h2 : (y :: ys).foldl (· ++ ·) "" = ys.foldl (· ++ ·) ("" ++ y) := rfl
    rw [h1, h2, ih (x ++ y), ih ("" ++ y)]
    apply String.ext
    simp [String.data_append]

/-- `String.join` distributes over list append. -/
theorem join_append (l1 l2 : List String) :
    String.join (l1 ++ l2) = String.join l1 ++ String.join l2 := by
  induction l1 with
  | nil =>
    apply String.ext
    simp [String.join, String.data_append]
  | cons x xs ih =>
    have h1 : String.join ((x :: xs) ++ l2) = ((xs ++ l2).foldl (· ++ ·) ("" ++ x)) := rfl
    have h2 : String.join (x :: xs) = (xs.foldl (· ++ ·) ("" ++ x)) := rfl
    rw [h1, h2, foldl_append_eq (xs ++ l2) ("" ++ x), foldl_append_eq xs ("" ++ x)]
    have h3 : (xs ++ l2).foldl (· ++ ·) "" = String.join (xs ++ l2) := rfl
    have h4 : xs.foldl (· ++ ·) "" = String.join xs := rfl
    rw [h3, h4, ih]
    apply String.ext
    simp [String.data_append]

/-- `String.join` on a cons. -/
theorem join_cons (s : String) (l : List String) :
    String.join (s :: l) = s ++ String.join l := by
  have h1 : String.join (s :: l) = l.foldl (· ++ ·) ("" ++ s) := rfl
  rw [h1, foldl_append_eq l ("" ++ s)]
  have h2 : l.foldl (· ++ ·) "" = String.join l := rfl
  rw [h2]
  apply String.ext
  simp [String.data_append]

/-! ### Lemmas about the traced pipeline -/

/-- A successful with-plugin generation. -/
theorem contents_with_ok (env : Env) (A : List String)
    (hc : env.withCode = 0) (hr : env.withRead = some A) :
    get_pb2_contents_with_grpc env =
      (Outcome.ok A,
       [Event.mkdtemp,
        Event.protocCall (PYTHON_EXECUTABLE env) true (PROTO_PATH env.projectRoot),
        Event.rmtree]) := by
  simp [get_pb2_contents_with_grpc, hc, hr]

/-- A successful without-plugin generation, at either call site. -/
theorem contents_without_ok (env : Env) (code : Int)
    (read : Option (List String)) (B : List String)
    (hc : code = 0) (hr : read = some B) :
    get_pb2_contents_without_grpc env code read =
      (Outcome.ok B,
       [Event.mkdtemp,
        Event.protocCall (PYTHON_EXECUTABLE env) false (PROTO_PATH env.projectRoot),
        Event.rmtree]) := by
  simp [get_pb2_contents_without_grpc, hc, hr]

/-- The full outcome and trace of a run in which all three compiler
invocations succeed, all generated files are readable, the alignment does
not fault and the extraction does not fault. -/
theorem main_ok_spec (env : Env) (A B B2 d names : List String)
    (hc1 : env.withCode = 0) (hw : env.withRead = some A)
    (hc2 : env.withoutCode = 0) (hwo : env.withoutRead = some B)
    (hc3 : env.withoutCode2 = 0) (hwo2 : env.withoutRead2 = some B2)
    (hd : get_pb2_grpc_only A B = some d)
    (hn : get_pb2_message_types B2 = some names) :
    main env =
      (Outcome.ok (),
       [Event.mkdtemp,
        Event.protocCall (PYTHON_EXECUTABLE env) true (PROTO_PATH env.projectRoot),
        Event.rmtree,
        Event.mkdtemp,
        Event.protocCall (PYTHON_EXECUTABLE env) false (PROTO_PATH env.projectRoot),
        Event.rmtree,
        Event.openOutput, Event.writeOutput HEADER_LINE,
        Event.mkdtemp,
        Event.protocCall (PYTHON_EXECUTABLE env) false (PROTO_PATH env.projectRoot),
        Event.rmtree]
       ++ names.map (fun n => Event.writeOutput (IMPORT_TEMPLATE n))
       ++ [Event.writeOutput FOOTER_LINE,
           Event.writeOutput (String.join d)]) := by
  have h1 := contents_with_ok env A hc1 hw
  have h2 := contents_without_ok env env.withoutCode env.withoutRead B hc2 hwo
  have h3 := contents_without_ok env env.withoutCode2 env.withoutRead2 B2 hc3 hwo2
  simp [main, run_get_pb2_grpc_only, run_get_pb2_message_types, seqOut,
    h1, h2, h3, hd, hn]

/-- A with-plugin invocation returning a non-zero status. -/
theorem contents_with_exit (env : Env) (hc : env.withCode ≠ 0) :
    get_pb2_contents_with_grpc env =
      (Outcome.exit env.withCode,
       [Event.mkdtemp,
        Event.protocCall (PYTHON_EXECUTABLE env) true (PROTO_PATH env.projectRoot),
        Event.rmtree]) := by
  simp [get_pb2_contents_with_grpc, hc]

/-- A without-plugin invocation returning a non-zero status, at either
call site. -/
theorem contents_without_exit (env : Env) (code : Int)
    (read : Option (List String)) (hc : code ≠ 0) :
    get_pb2_contents_without_grpc env code read =
      (Outcome.exit code,
       [Event.mkdtemp,
        Event.protocCall (PYTHON_EXECUTABLE env) false (PROTO_PATH env.projectRoot),
        Event.rmtree]) := by
  simp [get_pb2_contents_without_grpc, hc]

/-- The whole run when the with-plugin invocation fails. -/
theorem main_exit_with (env : Env) (hc : env.withCode ≠ 0) :
    main env =
      (Outcome.exit env.withCode,
       [Event.mkdtemp,
        Event.protocCall (PYTHON_EXECUTABLE env) true (PROTO_PATH env.projectRoot),
        Event.rmtree]) := by
  simp [main, run_get_pb2_grpc_only, seqOut, contents_with_exit env hc]

/-- The whole run when the with-plugin invocation succeeds, its file is
read, and the without-plugin invocation fails. -/
theorem main_exit_without (env : Env) (A : List String) (hc1 : env.withCode = 0)
    (hw : env.withRead = some A) (hc2 : env.withoutCode ≠ 0) :
    main env =
      (Outcome.exit env.withoutCode,
       [Event.mkdtemp,
        Event.protocCall (PYTHON_EXECUTABLE env) true (PROTO_PATH env.projectRoot),
        Event.rmtree,
        Event.mkdtemp,
        Event.protocCall (PYTHON_EXECUTABLE env) false (PROTO_PATH env.projectRoot),
        Event.rmtree]) := by
  simp [main, run_get_pb2_grpc_only, seqOut, contents_with_ok env A hc1 hw,
    contents_without_exit env env.withoutCode env.withoutRead hc2]

/-- The whole run when both diff-step generations succeed and the alignment
does not fault, but the without-plugin rerun inside message-type extraction
fails: by then the output file has been opened (truncating it) and the
header has been written, so the program exits with the rerun's status
leaving a header-only file behind. -/
theorem main_exit_without2 (env : Env) (A B d : List String)
    (hc1 : env.withCode = 0) (hw : env.withRead = some A)
    (hc2 : env.withoutCode = 0) (hwo : env.withoutRead = some B)
    (hd : get_pb2_grpc_only A B = some d)
    (hc3 : env.withoutCode2 ≠ 0) :
    main env =
      (Outcome.exit env.withoutCode2,
       [Event.mkdtemp,
        Event.protocCall (PYTHON_EXECUTABLE env) true (PROTO_PATH env.projectRoot),
        Event.rmtree,
        Event.mkdtemp,
        Event.protocCall (PYTHON_EXECUTABLE env) false (PROTO_PATH env.projectRoot),
        Event.rmtree,
        Event.openOutput, Event.writeOutput HEADER_LINE,
        Event.mkdtemp,
        Event.protocCall (PYTHON_EXECUTABLE env) false (PROTO_PATH env.projectRoot),
        Event.rmtree]) := by
  simp [main, run_get_pb2_grpc_only, run_get_pb2_message_types, seqOut,
    contents_with_ok env A hc1 hw,
    contents_without_ok env env.withoutCode env.withoutRead B hc2 hwo,
    contents_without_exit env env.withoutCode2 env.withoutRead2 hc3, hd]

/-- A run can only end normally when all three invocations succeed, all
files are read, and neither the alignment nor the extraction faults. -/
theorem main_ok_inv (env : Env) (h : (main env).1 = Outcome.ok ()) :
    env.withCode = 0 ∧ env.withoutCode = 0 ∧ env.withoutCode2 = 0 ∧
    ∃ A B B2 d names, env.withRead = some A ∧ env.withoutRead = some B ∧
      env.withoutRead2 = some B2 ∧
      get_pb2_grpc_only A B = some d ∧
      get_pb2_message_types B2 = some names := by
  by_cases hc1 : env.withCode = 0
  · cases hw : env.withRead with
    | none =>
      exfalso
      have : get_pb2_contents_with_grpc env =
          (Outcome.fault,
           [Event.mkdtemp,
            Event.protocCall (PYTHON_EXECUTABLE env) true (PROTO_PATH env.projectRoot),
            Event.rmtree]) := by
        simp [get_pb2_contents_with_grpc, hc1, hw]
      simp [main, run_get_pb2_grpc_only, seqOut, this] at h
    | some A =>
      by_cases hc2 : env.withoutCode = 0
      · cases hwo : env.withoutRead with
        | none =>
          exfalso
          have : get_pb2_contents_without_grpc env env.withoutCode env.withoutRead =
              (Outcome.fault,
               [Event.mkdtemp,
                Event.protocCall (PYTHON_EXECUTABLE env) false (PROTO_PATH env.projectRoot),
                Event.rmtree]) := by
            simp [get_pb2_contents_without_grpc, hc2, hwo]
          simp [main, run_get_pb2_grpc_only, run_get_pb2_message_types, seqOut,
            contents_with_ok env A hc1 hw, this] at h
        | some B =>
          cases hd : get_pb2_grpc_only A B with
          | none =>
            exfalso
            simp [main, run_get_pb2_grpc_only, seqOut,
              contents_with_ok env A hc1 hw,
              contents_without_ok env env.withoutCode env.withoutRead B hc2 hwo,
              hd] at h
          | some d =>
            by_cases hc3 : env.withoutCode2 = 0
            · cases hwo2 : env.withoutRead2 with
              | none =>
                exfalso
                have : get_pb2_contents_without_grpc env env.withoutCode2
                    env.withoutRead2 =
                    (Outcome.fault,
                     [Event.mkdtemp,
                      Event.protocCall (PYTHON_EXECUTABLE env) false (PROTO_PATH env.projectRoot),
                      Event.rmtree]) := by
                  simp [get_pb2_contents_without_grpc, hc3, hwo2]
                simp [main, run_get_pb2_grpc_only, run_get_pb2_message_types, seqOut,
                  contents_with_ok env A hc1 hw,
                  contents_without_ok env env.withoutCode env.withoutRead B hc2 hwo,
                  this, hd] at h
              | some B2 =>
                cases hn : get_pb2_message_types B2 with
                | none =>
                  exfalso
                  simp [main, run_get_pb2_grpc_only, run_get_pb2_message_types, seqOut,
                    contents_with_ok env A hc1 hw,
                    contents_without_ok env env.withoutCode env.withoutRead B hc2 hwo,
                    contents_without_ok env env.withoutCode2 env.withoutRead2 B2 hc3 hwo2,
                    hd, hn] at h
                | some names =>
                  exact ⟨hc1, hc2, hc3, A, B, B2, d, names, rfl, rfl, rfl, hd, hn⟩
            · exfalso
              have := main_exit_without2 env A B d hc1 hw hc2 hwo hd hc3
              rw [this] at h
              simp at h
      · exfalso
        have := main_exit_without env A hc1 hw hc2
        rw [this] at h
        simp at h
  · exfalso
    have := main_exit_with env hc1
    rw [this] at h
    simp at h

/-- Selecting the written chunks out of the import-line writes recovers
the import lines. -/
theorem filterMap_write_imports (names : List String) :
    List.filterMap ((fun e => match e with
      | Event.writeOutput s => some s
      | _ => none) ∘ fun n => Event.writeOutput (IMPORT_TEMPLATE n)) names
      = names.map IMPORT_TEMPLATE := by
  induction names with
  | nil => rfl
  | cons n ns ihn =>
    simp only [List.filterMap_cons, Function.comp, List.map_cons]
    rw [ihn]

/-- The output-file content of a run in which every step succeeds: header,
then import lines, footer, gRPC-only lines, in that order and nothing
else. -/
theorem main_ok_content (env : Env) (A B B2 d names : List String)
    (hc1 : env.withCode = 0) (hw : env.withRead = some A)
    (hc2 : env.withoutCode = 0) (hwo : env.withoutRead = some B)
    (hc3 : env.withoutCode2 = 0) (hwo2 : env.withoutRead2 = some B2)
    (hd : get_pb2_grpc_only A B = some d)
    (hn : get_pb2_message_types B2 = some names) :
    finalOutput env =
      some (HEADER_LINE ++
        (String.join (names.map IMPORT_TEMPLATE) ++
          (FOOTER_LINE ++ String.join d))) := by
  have hspec := main_ok_spec env A B B2 d names hc1 hw hc2 hwo hc3 hwo2 hd hn
  rw [finalOutput, hspec]
  rw [if_pos (by simp)]
  congr 1
  rw [writtenContent]
  simp only [List.filterMap_append, List.filterMap_cons, List.filterMap_nil,
    List.filterMap_map]
  rw [filterMap_write_imports]
  have hnil : String.join ([] : List String) = "" := rfl
  simp [join_append, join_cons, String.append_assoc, hnil]

/-- Joining `bin` and then `python` onto a path lands where joining
`bin/python` does. -/
theorem joinChars_bin_python (a : List Char) :
    joinChars (joinChars a ['b', 'i', 'n']) ['p', 'y', 't', 'h', 'o', 'n']
      = joinChars a ['b', 'i', 'n', '/', 'p', 'y', 't', 'h', 'o', 'n'] := by
  by_cases hc : (a.isEmpty || decide (a.getLast? = some '/')) = true
  · have h1 : joinChars a ['b', 'i', 'n'] = a ++ ['b', 'i', 'n'] := by
      rw [joinChars, if_neg (by decide), if_pos hc]
    have h2 : joinChars a ['b', 'i', 'n', '/', 'p', 'y', 't', 'h', 'o', 'n']
        = a ++ ['b', 'i', 'n', '/', 'p', 'y', 't', 'h', 'o', 'n'] := by
      rw [joinChars, if_neg (by decide), if_pos hc]
    rw [h1, h2, joinChars, if_neg (by decide), if_neg (by simp)]
    simp [List.append_assoc]
  · have h1 : joinChars a ['b', 'i', 'n'] = a ++ '/' :: ['b', 'i', 'n'] := by
      rw [joinChars, if_neg (by decide), if_neg hc]
    have h2 : joinChars a ['b', 'i', 'n', '/', 'p', 'y', 't', 'h', 'o', 'n']
        = a ++ '/' :: ['b', 'i', 'n', '/', 'p', 'y', 't', 'h', 'o', 'n'] := by
      rw [joinChars, if_neg (by decide), if_neg hc]
    rw [h1, h2, joinChars, if_neg (by decide), if_neg (by simp)]
    simp [List.append_assoc]

/-- Joining `v`, `bin`, `python` step by step lands on `v` joined with
`bin/python`. -/
theorem join_bin_python (v : String) :
    os_path_join (os_path_join v "bin") "python" = os_path_join v "bin/python" :=
  congrArg String.mk (joinChars_bin_python v.data)

/-- No import-line write is a compiler invocation. -/
theorem filterMap_protoc_imports (names : List String) :
    List.filterMap (protocOf ∘ fun n => Event.writeOutput (IMPORT_TEMPLATE n))
      names = [] := by
  induction names with
  | nil => rfl
  | cons n ns ihn =>
    simp only [List.filterMap_cons, Function.comp, protocOf]
    exact ihn

/-! ### The claims -/

/-- C1 (amended): when the without-plugin lines B are an in-order
subsequence of the with-plugin lines A and the alignment diff returns a
list at all, that list is exactly the lines of A not consumed while walking
B with the forward cursor and its length is `len A - len B`; for
A = ["x\n","y\n","z\n"] and B = ["x\n","z\n"] the diff is ["y\n"]. As
stated — for every subsequence pair — the claim fails, because the loop
faults whenever lines of A remain after B is exhausted (see the
counterexample). -/
theorem c1_alignment_diff (A B d : List String) (hsub : B.Sublist A)
    (hd : get_pb2_grpc_only A B = some d) :
    d = specWalkDiff A B ∧ B.length + d.length = A.length ∧
    get_pb2_grpc_only ["x\n", "y\n", "z\n"] ["x\n", "z\n"] = some ["y\n"] := by
  have h1 : d = specWalkDiff A B := by
    have := diffLoop_eq_specWalkDiff B A 0 d hd
    simpa using this
  refine ⟨h1, ?_, rfl⟩
  have h2 := specWalkDiff_length A B hsub
  rw [h1]
  omega

/-- Witness for C1 at the spec's example. -/
theorem c1_alignment_diff_witness :
    (["y\n"] : List String) = specWalkDiff ["x\n", "y\n", "z\n"] ["x\n", "z\n"] ∧
    (["x\n", "z\n"] : List String).length + (["y\n"] : List String).length
      = (["x\n", "y\n", "z\n"] : List String).length ∧
    get_pb2_grpc_only ["x\n", "y\n", "z\n"] ["x\n", "z\n"] = some ["y\n"] :=
  c1_alignment_diff ["x\n", "y\n", "z\n"] ["x\n", "z\n"] ["y\n"] (by decide) rfl

/-- C1 counterexample: B = [] is a subsequence of A = ["x\n"], yet the diff
faults instead of returning the single unconsumed line. -/
theorem c1_alignment_diff_cex :
    ([] : List String).Sublist ["x\n"] ∧
    get_pb2_grpc_only ["x\n"] [] = none ∧
    get_pb2_grpc_only ["x\n"] [] ≠ some ["x\n"] :=
  ⟨List.nil_sublist _, rfl, by decide⟩

/-- C2 (amended): a non-zero status from a compiler invocation made before
the output file is opened — the with-plugin invocation, or the diff step's
without-plugin invocation after the with-plugin generation was read — makes
the program exit with exactly that status with the output file never
opened and its previous state untouched; a non-zero status from the
without-plugin rerun inside message-type extraction also makes the program
exit with exactly that status, but only after the output file has been
truncated and the header comment written, leaving a header-only file. As
stated — the file is neither created nor modified whenever any compiler
invocation returns non-zero — the claim fails on the rerun path (see the
counterexample). -/
theorem c2_nonzero_exit_propagates (env : Env)
    (h : env.withCode ≠ 0
      ∨ (env.withCode = 0 ∧ (∃ A, env.withRead = some A) ∧ env.withoutCode ≠ 0)
      ∨ (env.withCode = 0 ∧ env.withoutCode = 0 ∧
          (∃ A B d, env.withRead = some A ∧ env.withoutRead = some B ∧
            get_pb2_grpc_only A B = some d) ∧ env.withoutCode2 ≠ 0)) :
    (main env).1 = Outcome.exit
        (if env.withCode ≠ 0 then env.withCode
         else if env.withoutCode ≠ 0 then env.withoutCode
         else env.withoutCode2) ∧
    (if env.withCode ≠ 0 ∨ env.withoutCode ≠ 0 then
       Event.openOutput ∉ (main env).2 ∧ finalOutput env = env.prevOutput
     else finalOutput env = some HEADER_LINE) := by
  rcases h with h | ⟨hc1, ⟨A, hw⟩, hc2⟩ | ⟨hc1, hc2, ⟨A, B, d, hw, hwo, hd⟩, hc3⟩
  · have hm := main_exit_with env h
    have h2 : Event.openOutput ∉ (main env).2 := by rw [hm]; simp
    refine ⟨by rw [hm, if_pos h], ?_⟩
    rw [if_pos (Or.inl h)]
    exact ⟨h2, by rw [finalOutput, if_neg h2]⟩
  · have hm := main_exit_without env A hc1 hw hc2
    have h2 : Event.openOutput ∉ (main env).2 := by rw [hm]; simp
    refine ⟨by rw [hm, if_neg (by simp [hc1]), if_pos hc2], ?_⟩
    rw [if_pos (Or.inr hc2)]
    exact ⟨h2, by rw [finalOutput, if_neg h2]⟩
  · have hm := main_exit_without2 env A B d hc1 hw hc2 hwo hd hc3
    refine ⟨by rw [hm, if_neg (by simp [hc1]), if_neg (by simp [hc2])], ?_⟩
    rw [if_neg (by simp [hc1, hc2])]
    rw [finalOutput, hm, if_pos (by simp)]
    rfl

/-- Witness for C2: a with-plugin invocation failing with status 5. -/
theorem c2_nonzero_exit_propagates_witness :
    (main envFailWith).1 = Outcome.exit
        (if envFailWith.withCode ≠ 0 then envFailWith.withCode
         else if envFailWith.withoutCode ≠ 0 then envFailWith.withoutCode
         else envFailWith.withoutCode2) ∧
    (if envFailWith.withCode ≠ 0 ∨ envFailWith.withoutCode ≠ 0 then
       Event.openOutput ∉ (main envFailWith).2 ∧
       finalOutput envFailWith = envFailWith.prevOutput
     else finalOutput envFailWith = some HEADER_LINE) :=
  c2_nonzero_exit_propagates envFailWith (Or.inl (by decide))

/-- C2 counterexample: when the without-plugin rerun inside message-type
extraction returns status 9, the program exits with status 9 — an
invocation returned non-zero — yet the output file was already opened,
truncated and given the header line, so it IS created or modified in this
execution. -/
theorem c2_nonzero_exit_propagates_cex :
    envRerunFail.withoutCode2 ≠ 0 ∧
    (main envRerunFail).1 = Outcome.exit 9 ∧
    Event.openOutput ∈ (main envRerunFail).2 ∧
    finalOutput envRerunFail = some HEADER_LINE ∧
    finalOutput envRerunFail ≠ envRerunFail.prevOutput :=
  ⟨by decide, by decide, by decide, by decide, by decide⟩

/-- C3: for any without-plugin lines B followed by surplus lines — in
particular B empty with non-empty surplus — B is a strict in-order
subsequence of the combined list, the cursor reaches `len B` while lines
remain, the indexing of the without-plugin list is out of bounds, and the
diff faults instead of returning a list. -/
theorem c3_diff_faults (B extra : List String) (h : extra ≠ []) :
    B.Sublist (B ++ extra) ∧ B ≠ B ++ extra ∧
    get_pb2_grpc_only (B ++ extra) B = none := by
  refine ⟨List.sublist_append_left B extra, ?_, ?_⟩
  · intro heq
    have hlen : (B ++ extra).length = B.length := by rw [← heq]
    rw [List.length_append] at hlen
    have : extra.length = 0 := by omega
    exact h (List.length_eq_zero.mp this)
  · exact diffLoop_suffix_append B B 0 extra h (by simp)

/-- Witness for C3 with B = ["x\n"] and one surplus line. -/
theorem c3_diff_faults_witness :
    (["x\n"] : List String).Sublist (["x\n"] ++ ["y\n"]) ∧
    (["x\n"] : List String) ≠ ["x\n"] ++ ["y\n"] ∧
    get_pb2_grpc_only (["x\n"] ++ ["y\n"]) ["x\n"] = none :=
  c3_diff_faults ["x\n"] ["y\n"] (by decide)

/-- C4 (amended): when every compiler invocation produces the same line
sequence and no line of that shared output holds the marker more than
once, the diff is empty and the output file consists of the header line,
one import line per marker line of the shared output, and the footer line
with nothing after it; the import section is empty only when the shared
output has no marker line (a double-marker line would instead crash the
extraction after only the header was written). As stated — zero import
lines always — the claim fails, because message-type extraction works on
the without-plugin lines regardless of the diff (see the
counterexample). -/
theorem c4_identical_outputs (env : Env) (L : List String)
    (hc1 : env.withCode = 0) (hw : env.withRead = some L)
    (hc2 : env.withoutCode = 0) (hwo : env.withoutRead = some L)
    (hc3 : env.withoutCode2 = 0) (hwo2 : env.withoutRead2 = some L)
    (hsplit : ∀ l ∈ L, (pySplit MESSAGE_SNIPPET l).length ≤ 2) :
    get_pb2_grpc_only L L = some [] ∧
    finalOutput env =
      some (HEADER_LINE ++
        (String.join ((pySorted (L.filterMap leftName)).map IMPORT_TEMPLATE) ++
          FOOTER_LINE)) := by
  have hdiff : get_pb2_grpc_only L L = some [] :=
    diffLoop_suffix L L 0 (by simp)
  have hex : get_pb2_message_types L = some (pySorted (L.filterMap leftName)) := by
    rw [get_pb2_message_types, extractLoop_eq_filterMap L hsplit]
    rfl
  refine ⟨hdiff, ?_⟩
  rw [main_ok_content env L L L [] (pySorted (L.filterMap leftName))
    hc1 hw hc2 hwo hc3 hwo2 hdiff hex]
  have hnil : String.join ([] : List String) = "" := rfl
  simp [hnil]

/-- Witness for C4 on identical one-marker-line outputs. -/
theorem c4_identical_outputs_witness :
    get_pb2_grpc_only [fooLine] [fooLine] = some [] ∧
    finalOutput envIdentical =
      some (HEADER_LINE ++
        (String.join ((pySorted ([fooLine].filterMap leftName)).map
          IMPORT_TEMPLATE) ++ FOOTER_LINE)) :=
  c4_identical_outputs envIdentical [fooLine] (by decide) rfl (by decide) rfl
    (by decide) rfl (by decide)

/-- C4 counterexample: identical outputs holding a marker line produce an
extra import line between header and footer, not a file of the two comment
lines alone. -/
theorem c4_identical_outputs_cex :
    envIdentical.withRead = envIdentical.withoutRead ∧
    finalOutput envIdentical =
      some (HEADER_LINE ++ (IMPORT_TEMPLATE "Foo" ++ FOOTER_LINE)) ∧
    finalOutput envIdentical ≠ some (HEADER_LINE ++ FOOTER_LINE) :=
  ⟨rfl, by decide, by decide⟩

/-- C5 (amended): on a without-plugin output in which no line holds the
marker more than once, extraction returns one name per marker line — the
portion of the line left of the marker — sorted lexicographically after
collection and without deduplication; on the Foo/Bar example it returns
["Bar", "Foo"]. As stated — for every without-plugin output — the claim
fails, because a line holding the marker twice makes the two-element
unpacking fault (see the counterexample). -/
theorem c5_message_extraction (lines : List String)
    (hsplit : ∀ l ∈ lines, (pySplit MESSAGE_SNIPPET l).length ≤ 2) :
    get_pb2_message_types lines = some (pySorted (lines.filterMap leftName)) ∧
    (pySorted (lines.filterMap leftName)).Perm (lines.filterMap leftName) ∧
    get_pb2_message_types [fooLine, barLine] = some ["Bar", "Foo"] := by
  refine ⟨?_, pySorted_perm _, by decide⟩
  rw [get_pb2_message_types, extractLoop_eq_filterMap lines hsplit]
  rfl

/-- Witness for C5 at the Foo/Bar example. -/
theorem c5_message_extraction_witness :
    get_pb2_message_types [fooLine, barLine]
      = some (pySorted ([fooLine, barLine].filterMap leftName)) ∧
    (pySorted ([fooLine, barLine].filterMap leftName)).Perm
      ([fooLine, barLine].filterMap leftName) ∧
    get_pb2_message_types [fooLine, barLine] = some ["Bar", "Foo"] :=
  c5_message_extraction [fooLine, barLine] (by decide)

/-- C5 counterexample: a line holding the marker twice is a marker line,
yet extraction faults on it and returns nothing at all. -/
theorem c5_message_extraction_cex :
    pyContains MESSAGE_SNIPPET doubleLine = true ∧
    get_pb2_message_types [doubleLine] = none :=
  ⟨by decide, by decide⟩

/-- C6 (amended): the extracted names form a lexicographically sorted list
that is a permutation of the collected names — so repeated marker lines for
the same name keep their repetitions; the result is not a deduplicated
set. As stated — no duplicate names ever — the claim fails (see the
counterexample). -/
theorem c6_sorted_with_duplicates (lines r : List String)
    (h : get_pb2_message_types lines = some r) :
    r.Pairwise (fun a b => strLE a b = true) ∧
    ∀ c, extractLoop lines = some c → r.Perm c := by
  rw [get_pb2_message_types] at h
  cases hex : extractLoop lines with
  | none => rw [hex] at h; cases h
  | some c0 =>
    rw [hex] at h
    simp only [Option.map_some'] at h
    cases h
    refine ⟨pySorted_pairwise c0, ?_⟩
    intro c hc
    cases hc
    exact pySorted_perm c0

/-- Witness for C6 on a duplicated marker line. -/
theorem c6_sorted_with_duplicates_witness :
    (["Foo", "Foo"] : List String).Pairwise (fun a b => strLE a b = true) ∧
    (∀ c, extractLoop [fooLine, fooLine] = some c →
      (["Foo", "Foo"] : List String).Perm c) :=
  c6_sorted_with_duplicates [fooLine, fooLine] ["Foo", "Foo"] (by decide)

/-- C6 counterexample: two identical marker lines yield the name twice —
the extracted list is not duplicate-free. -/
theorem c6_sorted_with_duplicates_cex :
    get_pb2_message_types [fooLine, fooLine] = some ["Foo", "Foo"] ∧
    ¬ (["Foo", "Foo"] : List String).Nodup :=
  ⟨by decide, by decide⟩

/-- C7 (amended): every complete run invokes the compiler exactly three
times against the same proto input: once with the gRPC plugin enabled and
twice without — the without-plugin generation is rerun during message-type
extraction. As stated — exactly twice — the claim fails (see the
counterexample). -/
theorem c7_three_invocations (env : Env) (h : (main env).1 = Outcome.ok ()) :
    (main env).2.filterMap protocOf =
      [(PYTHON_EXECUTABLE env, true, PROTO_PATH env.projectRoot),
       (PYTHON_EXECUTABLE env, false, PROTO_PATH env.projectRoot),
       (PYTHON_EXECUTABLE env, false, PROTO_PATH env.projectRoot)] := by
  obtain ⟨hc1, hc2, hc3, A, B, B2, d, names, hw, hwo, hwo2, hd, hn⟩ :=
    main_ok_inv env h
  rw [main_ok_spec env A B B2 d names hc1 hw hc2 hwo hc3 hwo2 hd hn]
  simp only [List.filterMap_append, List.filterMap_cons, protocOf,
    List.filterMap_nil, List.filterMap_map, filterMap_protoc_imports]
  rfl

/-- Witness for C7 at a concrete fully successful environment. -/
theorem c7_three_invocations_witness :
    (main envOk).2.filterMap protocOf =
      [(PYTHON_EXECUTABLE envOk, true, PROTO_PATH envOk.projectRoot),
       (PYTHON_EXECUTABLE envOk, false, PROTO_PATH envOk.projectRoot),
       (PYTHON_EXECUTABLE envOk, false, PROTO_PATH envOk.projectRoot)] :=
  c7_three_invocations envOk (by decide)

/-- C7 counterexample: a complete run performs three compiler invocations,
not two. -/
theorem c7_three_invocations_cex :
    (main envOk).1 = Outcome.ok () ∧
    ((main envOk).2.filterMap protocOf).length = 3 ∧
    ((main envOk).2.filterMap protocOf).length ≠ 2 :=
  ⟨by decide, by decide, by decide⟩

/-- C8: every run that reaches the write step truncates the output file and
leaves exactly the header line, one import line per extracted name, the
footer line, and then the gRPC-only lines verbatim with nothing after them;
the previous file content is ignored entirely. -/
theorem c8_output_layout (env : Env) (A B B2 d names : List String)
    (hc1 : env.withCode = 0) (hw : env.withRead = some A)
    (hc2 : env.withoutCode = 0) (hwo : env.withoutRead = some B)
    (hc3 : env.withoutCode2 = 0) (hwo2 : env.withoutRead2 = some B2)
    (hd : get_pb2_grpc_only A B = some d)
    (hn : get_pb2_message_types B2 = some names) :
    (main env).1 = Outcome.ok () ∧
    finalOutput env =
      some (HEADER_LINE ++
        (String.join (names.map IMPORT_TEMPLATE) ++
          (FOOTER_LINE ++ String.join d))) ∧
    (∀ p, finalOutput { env with prevOutput := p } = finalOutput env) := by
  have hmain := main_ok_spec env A B B2 d names hc1 hw hc2 hwo hc3 hwo2 hd hn
  have hcontent := main_ok_content env A B B2 d names hc1 hw hc2 hwo hc3 hwo2 hd hn
  refine ⟨by rw [hmain], hcontent, ?_⟩
  intro p
  have hcontent2 := main_ok_content { env with prevOutput := p } A B B2 d names
    hc1 hw hc2 hwo hc3 hwo2 hd hn
  rw [hcontent2, hcontent]

/-- Witness for C8 with one marker line and one gRPC-only line. -/
theorem c8_output_layout_witness :
    (main envRich).1 = Outcome.ok () ∧
    finalOutput envRich =
      some (HEADER_LINE ++
        (String.join ((["Foo"] : List String).map IMPORT_TEMPLATE) ++
          (FOOTER_LINE ++ String.join ["g\n"]))) ∧
    finalOutput { envRich with prevOutput := some "old" }
      = finalOutput envRich := by
  have h := c8_output_layout envRich [fooLine, "g\n", "z\n"] [fooLine, "z\n"]
    [fooLine, "z\n"] ["g\n"] ["Foo"] (by decide) rfl (by decide) rfl (by decide)
    rfl (by decide) (by decide)
  exact ⟨h.1, h.2.1, h.2.2 (some "old")⟩

/-- C9: each code-generation operation creates a temp dir and removes it as
its last action, on every exit path — normal return, non-zero compiler
status, or a fault while reading the generated file — whatever the
environment, and at each of the without-plugin function's two call sites
whatever that call's own exit code and read result. -/
theorem c9_tempdir_cleanup (env : Env) (code : Int)
    (read : Option (List String)) :
    Event.mkdtemp ∈ (get_pb2_contents_with_grpc env).2 ∧
    (get_pb2_contents_with_grpc env).2.getLast? = some Event.rmtree ∧
    Event.mkdtemp ∈ (get_pb2_contents_without_grpc env code read).2 ∧
    (get_pb2_contents_without_grpc env code read).2.getLast?
      = some Event.rmtree :=
  ⟨List.mem_cons_self _ _, rfl, List.mem_cons_self _ _, rfl⟩

/-- Witness for C9 at a concrete environment and a failing call. -/
theorem c9_tempdir_cleanup_witness :
    Event.mkdtemp ∈ (get_pb2_contents_with_grpc envOk).2 ∧
    (get_pb2_contents_with_grpc envOk).2.getLast? = some Event.rmtree ∧
    Event.mkdtemp ∈ (get_pb2_contents_without_grpc envOk 9 none).2 ∧
    (get_pb2_contents_without_grpc envOk 9 none).2.getLast?
      = some Event.rmtree :=
  c9_tempdir_cleanup envOk 9 none

/-- C10: with the environment variable unset the compiler tool runs through
the current interpreter's own executable; set to a value `v`, it runs
through `v` joined with `bin/python`. -/
theorem c10_python_executable (env : Env) :
    PYTHON_EXECUTABLE env =
      (match env.grpcioVirtualenv with
       | none => env.sysExecutable
       | some v => os_path_join v "bin/python") := by
  cases h : env.grpcioVirtualenv with
  | none => simp [PYTHON_EXECUTABLE, h]
  | some v => simp [PYTHON_EXECUTABLE, h, join_bin_python]

end MakeDatastoreGrpc
